import Mathlib

/-!
Verification development for the MES ION API gateway.

Shallow embedding of the token lifecycle manager (src/integrations/ion/auth.ts),
the proxying API client with its 401-retry (src/integrations/ion/client.ts),
the background token refresher (src/integrations/ion/token-refresher.ts),
the in-process memory cache driver (src/cache/drivers/memory.driver.ts) together
with the cache manager wrapper, the proxy route handler (src/routes/proxy.ts),
and the redacting serializer of the logger (src/utils/logger.ts).

Time is modelled as an integer count of milliseconds (JavaScript Date.now()).
Server-reported token lifetimes are integers in seconds.  Asynchronous methods
are embedded as pure functions that take the current time and the outcome of
any network interaction as explicit parameters and return the new state
together with an observable trace (network calls made, cache writes, errors
thrown).  Fallible code returns Except.
-/

namespace MesIonApi

/-- An entry of the in-process memory cache (src/cache/types.ts, CacheEntry):
a value plus an optional absolute expiry in milliseconds (null means the
entry never expires). -/
structure CacheEntry (V : Type) where
  value : V
  expiresAt : Option Int
deriving Repr, DecidableEq

/-- MemoryCacheDriver (src/cache/drivers/memory.driver.ts): a Map from string
keys to cache entries, embedded as an association list where the first
binding for a key is the current one. -/
structure MemoryCache (V : Type) where
  entries : List (String × CacheEntry V)
deriving Repr, DecidableEq

namespace MemoryCache

/-- Raw Map lookup (this.cache.get(key)). -/
def getEntry {V : Type} (c : MemoryCache V) (key : String) : Option (CacheEntry V) :=
  c.entries.lookup key

/-- Raw Map removal (this.cache.delete(key)); returns whether the key was
present, like the JavaScript Map.delete. -/
def deleteKey {V : Type} (c : MemoryCache V) (key : String) : Bool × MemoryCache V :=
  (c.entries.any (fun p => p.1 == key), ⟨c.entries.filter (fun p => p.1 != key)⟩)

/-- MemoryCacheDriver.get: returns null when the key is absent; performs the
lazy expiry check (entry.expiresAt && entry.expiresAt < Date.now()) and
deletes the entry when it has expired. -/
def get {V : Type} (c : MemoryCache V) (key : String) (now : Int) :
    Option V × MemoryCache V :=
  match c.getEntry key with
  | none => (none, c)
  | some e =>
    match e.expiresAt with
    | some exp => if exp < now then (none, (c.deleteKey key).2) else (some e.value, c)
    | none => (some e.value, c)

/-- MemoryCacheDriver.set: expiresAt = ttlSeconds ? Date.now() + ttlSeconds * 1000 : null.
A missing ttl and a ttl of exactly 0 are both falsy in JavaScript and yield a
never-expiring entry; any other ttl (negative included) yields an absolute
expiry. -/
def set {V : Type} (c : MemoryCache V) (key : String) (value : V) (now : Int)
    (ttlSeconds : Option Int) : MemoryCache V :=
  let expiresAt : Option Int :=
    match ttlSeconds with
    | none => none
    | some t => if t = 0 then none else some (now + t * 1000)
  ⟨(key, ⟨value, expiresAt⟩) :: c.entries.filter (fun p => p.1 != key)⟩

/-- The empty cache (a fresh Map). -/
def empty (V : Type) : MemoryCache V := ⟨[]⟩

end MemoryCache

/-- CacheManager.set (src/cache/index.ts): the driver ttl is
options?.ttlSeconds ?? this.defaultTtl (nullish coalescing: an explicit 0
is kept, only a missing option falls back to the default). -/
def CacheManager.set {V : Type} (defaultTtl : Int) (c : MemoryCache V) (key : String)
    (value : V) (now : Int) (ttlSeconds : Option Int) : MemoryCache V :=
  c.set key value now (some (ttlSeconds.getD defaultTtl))

/-- CacheManager.key(...parts): parts.join. -/
def CacheManager.key (parts : List String) : String :=
  String.intercalate ":" parts

/-- The token value the auth manager stores in the cache
({ token, expiresAt }). -/
structure TokenValue where
  token : String
  expiresAt : Int
deriving Repr, DecidableEq

/-- IONTokenResponse (src/integrations/ion/types.ts): success payload of the
OAuth token endpoint. -/
structure IONTokenResponse where
  access_token : String
  token_type : String
  expires_in : Int
  scope : Option String
deriving Repr, DecidableEq

/-- IONAPIError (src/utils/errors.ts): the typed error the gateway throws. -/
structure IONAPIError where
  message : String
  statusCode : Int
deriving Repr, DecidableEq

/-- Outcome of the POST to the OAuth token endpoint, as seen by
IONAuthManager.requestNewToken: a token payload, an OAuth error payload
(response.data contains an error field), or an axios transport/HTTP failure
carrying an optional response status. -/
inductive TokenEndpointResult where
  | success (resp : IONTokenResponse)
  | oauthError (error : String) (description : Option String)
  | transportError (status : Option Int) (message : String)
deriving Repr, DecidableEq

/-- The token store: the slice of the shared cache holding the single token
entry under the fixed key ion:oauth:token. -/
abbrev TokenStore := MemoryCache TokenValue

namespace IONAuthManager

/-- private readonly cacheKey = ion:oauth:token. -/
def cacheKey : String := "ion:oauth:token"

/-- The effective ttl the auth manager passes to cache.set:
tokenData.expires_in - 60 (the 60-second safety margin, with no clamping). -/
def effectiveTtlSeconds (expires_in : Int) : Int :=
  expires_in - 60

/-- IONAuthManager.requestNewToken: POSTs the credentials (the outcome is the
endpointResult parameter).  An OAuth error payload or a transport failure is
translated to a thrown IONAPIError and leaves the cache untouched.  On
success the token is cached under cacheKey with
expiresAt = Date.now() + (expires_in - 60) * 1000 stored inside the value and
ttlSeconds = expires_in - 60 handed to cache.set, and the access token is
returned. -/
def requestNewToken (now : Int) (endpointResult : TokenEndpointResult)
    (c : TokenStore) : Except IONAPIError (String × TokenStore) :=
  match endpointResult with
  | .oauthError e _ => .error ⟨"OAuth token request failed: " ++ e, 401⟩
  | .transportError status _ => .error ⟨"Failed to obtain ION access token", status.getD 500⟩
  | .success resp =>
    let expiresAt := now + (effectiveTtlSeconds resp.expires_in) * 1000
    let c2 := c.set cacheKey ⟨resp.access_token, expiresAt⟩ now
      (some (effectiveTtlSeconds resp.expires_in))
    .ok (resp.access_token, c2)

/-- Observable outcome of one getAccessToken call. -/
structure GetTokenTrace where
  result : Except IONAPIError String
  store : TokenStore
  networkCall : Bool
deriving Repr

/-- IONAuthManager.getAccessToken: reads the cache first; when an entry is
present and its stored expiresAt is strictly in the future the cached token
string is returned with no network call; otherwise a new token is requested
from the token endpoint. -/
def getAccessToken (now : Int) (endpointResult : TokenEndpointResult)
    (c : TokenStore) : GetTokenTrace :=
  match c.get cacheKey now with
  | (some cached, c1) =>
    if cached.expiresAt > now then
      ⟨.ok cached.token, c1, false⟩
    else
      match requestNewToken now endpointResult c1 with
      | .ok (tok, c2) => ⟨.ok tok, c2, true⟩
      | .error e => ⟨.error e, c1, true⟩
  | (none, c1) =>
    match requestNewToken now endpointResult c1 with
    | .ok (tok, c2) => ⟨.ok tok, c2, true⟩
    | .error e => ⟨.error e, c1, true⟩

/-- IONAuthManager.clearToken: await cache.delete(this.cacheKey).  The
Map.delete result is discarded; the call never throws. -/
def clearToken (c : TokenStore) : TokenStore :=
  (c.deleteKey cacheKey).2

end IONAuthManager

/-- Observable outcome of one IONApiClient.request call: per upstream attempt,
whether the forwarded headers carried X-Retry-Auth and whether the token used
for that attempt was freshly acquired over the network; the number of
clearToken calls; the final result (thrown IONAPIError or status and body);
and the final token store. -/
structure RequestTrace where
  attemptRetryHeader : List Bool
  attemptAcquired : List Bool
  clearCalls : Nat
  result : Except IONAPIError (Int × String)
  store : TokenStore
deriving Repr

namespace IONApiClient

/-- IONApiClient.request (src/integrations/ion/client.ts), embedded with the
upstream API as a function from the attempt index to the (status, body) the
upstream answers with.  axios resolves 2xx statuses and throws an AxiosError
for the rest.  retryHeader is whether options.headers carries X-Retry-Auth:
on a 401 without that header the client clears the token and calls itself
once more with the header set; any other failure, and a 401 with the header
present, is thrown as an IONAPIError.  The recursion terminates because the
recursive call always sets retryHeader. -/
def request (upstream : Nat → Int × String) (now : Int)
    (endpointResult : TokenEndpointResult) (attempt : Nat) (retryHeader : Bool)
    (c : TokenStore) : RequestTrace :=
  let g := IONAuthManager.getAccessToken now endpointResult c
  match g.result with
  | .error e => ⟨[], [], 0, .error e, g.store⟩
  | .ok _ =>
    let st := (upstream attempt).1
    let body := (upstream attempt).2
    if 200 ≤ st ∧ st < 300 then
      ⟨[retryHeader], [g.networkCall], 0, .ok (st, body), g.store⟩
    else if h : st = 401 ∧ retryHeader = false then
      let c2 := IONAuthManager.clearToken g.store
      let rest := request upstream now endpointResult (attempt + 1) true c2
      ⟨retryHeader :: rest.attemptRetryHeader, g.networkCall :: rest.attemptAcquired,
        rest.clearCalls + 1, rest.result, rest.store⟩
    else
      ⟨[retryHeader], [g.networkCall], 0,
        .error ⟨"ION API request failed", st⟩, g.store⟩
termination_by (if retryHeader then 0 else 1)
decreasing_by simp [h.2]

end IONApiClient

/-- Observable outcome of one TokenRefresher.checkAndRefreshToken tick. -/
structure TickTrace where
  invalidations : Nat
  acquisitionAttempts : Nat
  failed : Bool
  store : TokenStore
deriving Repr

namespace TokenRefresher

/-- TokenRefresher.checkAndRefreshToken (src/integrations/ion/token-refresher.ts):
reads the cached token; when absent it does nothing.  Otherwise it computes
timeUntilExpiry = (expiresAt - now) / 1000 seconds (exact JavaScript float
division, embedded as a rational) and, when it is at most refreshBeforeExpiry,
runs clearToken followed by getAccessToken.  Every error is caught inside the
method (failed is recorded, nothing is thrown). -/
def checkAndRefreshToken (now : Int) (refreshBeforeExpiry : ℚ)
    (endpointResult : TokenEndpointResult) (c : TokenStore) : TickTrace :=
  match c.get IONAuthManager.cacheKey now with
  | (none, c1) => ⟨0, 0, false, c1⟩
  | (some cached, c1) =>
    let timeUntilExpiry : ℚ := ((cached.expiresAt - now : Int) : ℚ) / 1000
    if timeUntilExpiry ≤ refreshBeforeExpiry then
      let c2 := IONAuthManager.clearToken c1
      match IONAuthManager.requestNewToken now endpointResult c2 with
      | .ok (_, c3) => ⟨1, 1, false, c3⟩
      | .error _ => ⟨1, 1, true, c2⟩
    else
      ⟨0, 0, false, c1⟩

/-- The own state of the refresher: the isRunning flag, whether an interval timer
is installed (intervalId !== undefined), the two configured parameters, and
the shared token store it acts on. -/
structure State where
  isRunning : Bool
  hasInterval : Bool
  refreshBeforeExpiry : ℚ
  checkIntervalMs : Int
  store : TokenStore
deriving Repr

/-- One scheduled interval tick: setInterval invokes checkAndRefreshToken and
catches any error; the tick never touches isRunning or the interval timer. -/
def tick (now : Int) (endpointResult : TokenEndpointResult) (st : State) : State :=
  { st with store := (checkAndRefreshToken now st.refreshBeforeExpiry endpointResult st.store).store }

/-- TokenRefresher.start: a second start while running warns and no-ops;
otherwise it sets isRunning, runs one immediate check (errors caught) and
installs the interval timer. -/
def start (now : Int) (endpointResult : TokenEndpointResult) (st : State) : State :=
  if st.isRunning then st
  else
    let st1 := { st with isRunning := true }
    let st2 := tick now endpointResult st1
    { st2 with hasInterval := true }

/-- TokenRefresher.stop: a stop while not running no-ops; otherwise it clears
the interval timer and resets isRunning. -/
def stop (st : State) : State :=
  if st.isRunning = false then st
  else { st with hasInterval := false, isRunning := false }

/-- A sequence of scheduled ticks, each with its own clock reading and token
endpoint outcome (failures included). -/
def runTicks (events : List (Int × TokenEndpointResult)) (st : State) : State :=
  events.foldl (fun s ev => tick ev.1 ev.2 s) st

end TokenRefresher

/-- JavaScript String.prototype.startsWith, embedded over the character
sequence of the string. -/
def jsStartsWith (s pat : String) : Bool :=
  pat.toList.isPrefixOf s.toList

/-- JavaScript String.prototype.toUpperCase, embedded over the character
sequence of the string. -/
def jsToUpper (s : String) : String :=
  String.mk (s.toList.map Char.toUpper)

namespace ProxyRoute

/-- CACHE_CONFIG (src/routes/proxy.ts): per path prefix, the response ttl in
seconds and the allowed methods, in object insertion order. -/
def CACHE_CONFIG : List (String × Int × List String) :=
  [("/M3/m3api-rest/execute", 300, ["GET"]),
   ("/IDM/api/items", 600, ["GET"]),
   ("/LN/api", 300, ["GET"])]

/-- Return shape of the shouldCache helper ({ cache: boolean; ttl?: number }). -/
structure ShouldCacheResult where
  cache : Bool
  ttl : Option Int
deriving Repr, DecidableEq

/-- shouldCache: the first configured pattern the path starts with and whose
method list contains the upper-cased method decides cacheability and ttl. -/
def shouldCache (path method : String) : ShouldCacheResult :=
  match CACHE_CONFIG.find?
      (fun pc => jsStartsWith path pc.1 && pc.2.2.contains (jsToUpper method)) with
  | some pc => ⟨true, some pc.2.1⟩
  | none => ⟨false, none⟩

/-- The slice of an inbound request the proxy handler looks at: the
authenticated client id (req.clientId, absent when auth attached none), the
HTTP method, the path after /proxy, and JSON.stringify(req.query) kept as an
uninterpreted string. -/
structure ProxyRequest where
  clientId : Option String
  method : String
  path : String
  queryJson : String
deriving Repr, DecidableEq

/-- The derived response-cache key:
cache.key(proxy, req.clientId || unknown, method, ionPath, JSON.stringify(req.query)).
The JavaScript || falls back on any falsy clientId, the empty string included. -/
def proxyCacheKey (req : ProxyRequest) : String :=
  let client :=
    match req.clientId with
    | some s => if s = "" then "unknown" else s
    | none => "unknown"
  CacheManager.key ["proxy", client, req.method, req.path, req.queryJson]

/-- Observable outcome of one pass through the proxy route handler. -/
structure ProxyTrace where
  xCache : Option String
  upstreamAttempts : Nat
  acquisitions : Nat
  result : Except IONAPIError (Int × String)
  respCache : MemoryCache String
  tokenStore : TokenStore
deriving Repr

/-- The forward path of the proxy handler (cache miss or non-GET): call
ionClient.request with headers that carry no X-Retry-Auth, then on success
set X-Cache MISS and write the body into the response cache when the request
is a cacheable GET answered with status 200; a thrown IONAPIError propagates
to the error middleware before any X-Cache header is set. -/
def proxyForward (defaultTtl : Int) (now : Int) (req : ProxyRequest)
    (endpointResult : TokenEndpointResult) (upstream : Nat → Int × String)
    (rc : MemoryCache String) (tc : TokenStore) : ProxyTrace :=
  let t := IONApiClient.request upstream now endpointResult 0 false tc
  match t.result with
  | .error e =>
    ⟨none, t.attemptRetryHeader.length, t.attemptAcquired.count true, .error e, rc, t.store⟩
  | .ok (status, body) =>
    let cfg := shouldCache req.path req.method
    let rc2 :=
      if req.method = "GET" ∧ status = 200 ∧ cfg.cache = true then
        CacheManager.set defaultTtl rc (proxyCacheKey req) body now cfg.ttl
      else rc
    ⟨some "MISS", t.attemptRetryHeader.length, t.attemptAcquired.count true,
      .ok (status, body), rc2, t.store⟩

/-- The proxy route handler (proxyRouter.all): for a GET, consult the response
cache first and answer a hit immediately with X-Cache HIT, no upstream
interaction and no token acquisition; otherwise forward. -/
def proxyHandle (defaultTtl : Int) (now : Int) (req : ProxyRequest)
    (endpointResult : TokenEndpointResult) (upstream : Nat → Int × String)
    (rc : MemoryCache String) (tc : TokenStore) : ProxyTrace :=
  if req.method = "GET" then
    match rc.get (proxyCacheKey req) now with
    | (some body, rc1) => ⟨some "HIT", 0, 0, .ok (200, body), rc1, tc⟩
    | (none, rc1) => proxyForward defaultTtl now req endpointResult upstream rc1 tc
  else
    proxyForward defaultTtl now req endpointResult upstream rc tc

/-- A sequence of inbound requests for the same descriptor, each event
carrying its own clock reading, token endpoint outcome and upstream
behaviour; the caches thread through. -/
def proxySeq (defaultTtl : Int) (req : ProxyRequest)
    (events : List (Int × TokenEndpointResult × (Nat → Int × String)))
    (rc : MemoryCache String) (tc : TokenStore) :
    List ProxyTrace × MemoryCache String × TokenStore :=
  match events with
  | [] => ([], rc, tc)
  | ev :: rest =>
    let tr := proxyHandle defaultTtl ev.1 req ev.2.1 ev.2.2 rc tc
    let r := proxySeq defaultTtl req rest tr.respCache tr.tokenStore
    (tr :: r.1, r.2)

end ProxyRoute

/-- A JSON-like value, the shape of the metadata objects handed to the
logger (src/utils/logger.ts).  Values are finite trees, so the circular
reference guard of safeStringify never fires and is not modelled. -/
inductive JsonVal where
  | str (s : String)
  | num (n : Int)
  | bool (b : Bool)
  | null
  | arr (elems : List JsonVal)
  | obj (fields : List (String × JsonVal))
deriving Repr

namespace LoggerModel

mutual

/-- The replacer of safeStringify applied through the whole tree, as
JSON.stringify does: a property whose key is password, sask, clientSecret or
cs becomes the string [REDACTED]; everything else is kept. -/
def redactVal : JsonVal → JsonVal
  | .arr es => .arr (redactElems es)
  | .obj fs => .obj (redactFields fs)
  | .str s => .str s
  | .num n => .num n
  | .bool b => .bool b
  | .null => .null

/-- Redaction over array elements (array indices are never secret keys). -/
def redactElems : List JsonVal → List JsonVal
  | [] => []
  | v :: rest => redactVal v :: redactElems rest

/-- Redaction over object properties by field name. -/
def redactFields : List (String × JsonVal) → List (String × JsonVal)
  | [] => []
  | (k, v) :: rest =>
    (k, if k = "password" ∨ k = "sask" ∨ k = "clientSecret" ∨ k = "cs" then
          .str "[REDACTED]"
        else redactVal v) :: redactFields rest

end

mutual

/-- Plain JSON.stringify with no replacer, the serialization the winston
json() format performs.  String escaping is not modelled (none of the inputs
considered here contain characters needing escapes). -/
def jsonStringify : JsonVal → String
  | .str s => "\"" ++ s ++ "\""
  | .num n => toString n
  | .bool b => if b then "true" else "false"
  | .null => "null"
  | .arr es => "[" ++ jsonStringifyElems es ++ "]"
  | .obj fs => "\x7b" ++ jsonStringifyFields fs ++ "\x7d"

/-- Comma-joined serialization of array elements. -/
def jsonStringifyElems : List JsonVal → String
  | [] => ""
  | [v] => jsonStringify v
  | v :: rest => jsonStringify v ++ "," ++ jsonStringifyElems rest

/-- Comma-joined serialization of object properties. -/
def jsonStringifyFields : List (String × JsonVal) → String
  | [] => ""
  | [(k, v)] => "\"" ++ k ++ "\":" ++ jsonStringify v
  | (k, v) :: rest =>
    "\"" ++ k ++ "\":" ++ jsonStringify v ++ "," ++ jsonStringifyFields rest

end

/-- safeStringify (src/utils/logger.ts): JSON.stringify with the redacting
replacer. -/
def safeStringify (v : JsonVal) : String :=
  jsonStringify (redactVal v)

/-- The serialization the configured winston logger applies to the metadata
of a log entry: the prettyFormat built on safeStringify runs only when
PRETTY_LOGS is the string true AND NODE_ENV is development; every other
combination uses the stock json() format, which is JSON.stringify with no
replacer. -/
def loggerSerializeMeta (prettyLogs : Bool) (nodeEnv : String) (meta : JsonVal) : String :=
  if prettyLogs && nodeEnv == "development" then safeStringify meta
  else jsonStringify meta

end LoggerModel

/-! ## Helper lemmas -/

/-- Looking up a key in a list from which every binding of that key has been
filtered out finds nothing. -/
theorem lookup_filter_self {α : Type} (k : String) (l : List (String × α)) :
    (l.filter (fun p => p.1 != k)).lookup k = none := by
  induction l with
  | nil => rfl
  | cons hd tl ih =>
    by_cases h : hd.1 = k
    · simp [List.filter, h, ih]
    · simp only [List.filter]
      have hb : (hd.1 != k) = true := by simp [bne, h]
      rw [hb]
      simp only [List.lookup]
      have hk : (k == hd.1) = false := by simp [Ne.symm h]
      rw [hk]
      exact ih

/-- Filtering with the same key predicate twice is the same as filtering
once. -/
theorem filter_ne_idem {α : Type} (k : String) (l : List (String × α)) :
    ((l.filter (fun p => p.1 != k)).filter (fun p => p.1 != k))
      = l.filter (fun p => p.1 != k) := by
  rw [List.filter_filter]
  congr 1
  funext p
  exact Bool.and_self _

/-- A list in which a key is not found is unchanged by filtering that key
out. -/
theorem filter_of_lookup_none {α : Type} (k : String) (l : List (String × α))
    (h : l.lookup k = none) : l.filter (fun p => p.1 != k) = l := by
  induction l with
  | nil => rfl
  | cons hd tl ih =>
    simp only [List.lookup] at h
    rcases hbe : (k == hd.1) with _ | _
    · rw [hbe] at h
      simp only [List.filter]
      have hb : (hd.1 != k) = true := by
        simp only [bne]
        simp only [beq_eq_false_iff_ne] at hbe
        simp [Ne.symm hbe]
      rw [hb, ih h]
    · rw [hbe] at h
      simp at h

/-- The entry just written by MemoryCache.set is found by getEntry. -/
theorem MemoryCache.getEntry_set_self {V : Type} (c : MemoryCache V) (k : String)
    (v : V) (now : Int) (ttl : Option Int) :
    (c.set k v now ttl).getEntry k
      = some ⟨v, match ttl with
                 | none => none
                 | some t => if t = 0 then none else some (now + t * 1000)⟩ := by
  simp [MemoryCache.set, MemoryCache.getEntry, List.lookup]

/-- getEntry after a set with an explicit ttl. -/
theorem MemoryCache.getEntry_set_some {V : Type} (c : MemoryCache V) (k : String)
    (v : V) (now : Int) (ttl : Int) :
    (c.set k v now (some ttl)).getEntry k
      = some ⟨v, if ttl = 0 then none else some (now + ttl * 1000)⟩ :=
  MemoryCache.getEntry_set_self c k v now (some ttl)

/-- After deleteKey the key is gone. -/
theorem MemoryCache.getEntry_deleteKey_self {V : Type} (c : MemoryCache V) (k : String) :
    ((c.deleteKey k).2).getEntry k = none := by
  simp only [MemoryCache.deleteKey, MemoryCache.getEntry]
  exact lookup_filter_self k c.entries

/-- clearToken removes the token entry. -/
theorem IONAuthManager.clearToken_getEntry (c : TokenStore) :
    (IONAuthManager.clearToken c).getEntry IONAuthManager.cacheKey = none :=
  MemoryCache.getEntry_deleteKey_self c IONAuthManager.cacheKey

/-- When the token key is absent from the store, getAccessToken attempts an
acquisition (the networkCall flag is set) whatever the endpoint answers. -/
theorem IONAuthManager.getAccessToken_networkCall_of_getEntry_none
    (now : Int) (er : TokenEndpointResult) (c : TokenStore)
    (h : c.getEntry IONAuthManager.cacheKey = none) :
    (IONAuthManager.getAccessToken now er c).networkCall = true := by
  unfold IONAuthManager.getAccessToken
  simp only [MemoryCache.get, h]
  cases er <;> simp [IONAuthManager.requestNewToken]

/-- With a success answer from the token endpoint, getAccessToken always
returns ok. -/
theorem IONAuthManager.getAccessToken_success_result
    (now : Int) (resp : IONTokenResponse) (c : TokenStore) :
    ∃ tok, (IONAuthManager.getAccessToken now (.success resp) c).result = .ok tok := by
  unfold IONAuthManager.getAccessToken
  rcases hg : c.get IONAuthManager.cacheKey now with ⟨cv, c1⟩
  rcases cv with _ | cached
  · exact ⟨resp.access_token, by simp [IONAuthManager.requestNewToken]⟩
  · by_cases hlt : cached.expiresAt > now
    · exact ⟨cached.token, by simp [hlt]⟩
    · exact ⟨resp.access_token, by simp [hlt, IONAuthManager.requestNewToken]⟩

/-- When the stored token value is already at or past its expiry, every
getAccessToken call attempts an acquisition, whether or not the driver-level
expiry has also passed. -/
theorem IONAuthManager.getAccessToken_networkCall_of_expired
    (now : Int) (er : TokenEndpointResult) (c : TokenStore) (e : CacheEntry TokenValue)
    (h : c.getEntry IONAuthManager.cacheKey = some e)
    (hv : e.value.expiresAt ≤ now) :
    (IONAuthManager.getAccessToken now er c).networkCall = true := by
  unfold IONAuthManager.getAccessToken
  simp only [MemoryCache.get, h]
  rcases hd : e.expiresAt with _ | exp
  · have : ¬ (e.value.expiresAt > now) := by omega
    simp only [this, if_false]
    cases er <;> simp [IONAuthManager.requestNewToken]
  · by_cases hlt : exp < now
    · simp only [hlt, if_true]
      cases er <;> simp [IONAuthManager.requestNewToken]
    · simp only [hlt, if_false]
      have : ¬ (e.value.expiresAt > now) := by omega
      simp only [this, if_false]
      cases er <;> simp [IONAuthManager.requestNewToken]

/-- When a token entry is present, its driver-level expiry agrees with the
stored value expiry (or is absent), and the stored expiry is strictly in the
future, getAccessToken returns the cached token string, leaves the store
unchanged and makes no network call. -/
theorem IONAuthManager.getAccessToken_cached
    (now : Int) (er : TokenEndpointResult) (c : TokenStore) (e : CacheEntry TokenValue)
    (h : c.getEntry IONAuthManager.cacheKey = some e)
    (hdrv : e.expiresAt = some e.value.expiresAt ∨ e.expiresAt = none)
    (hv : e.value.expiresAt > now) :
    IONAuthManager.getAccessToken now er c = ⟨.ok e.value.token, c, false⟩ := by
  unfold IONAuthManager.getAccessToken
  simp only [MemoryCache.get, h]
  rcases hdrv with hd | hd <;> rw [hd]
  · have : ¬ (e.value.expiresAt < now) := by omega
    simp [this, hv]
  · simp [hv]

/-! ## Claim C1 — expiry margin on token acquisition -/

/-- C1: a successful acquisition at time t with server lifetime expires_in
stores the token with value expiry t + (expires_in - 60) * 1000 ms, hands
cache.set the effective ttl expires_in - 60 s (visible as the driver-level
absolute expiry t + (expires_in - 60) * 1000 whenever the ttl is nonzero);
for expires_in = 3600 the effective ttl is 3540 s, so a getAccessToken call
at t + 3541 s re-acquires over the network while one at t + 3539 s returns
the cached token without any network call. -/
theorem claim_C1_expiry_margin
    (t : Int) (resp : IONTokenResponse) (c : TokenStore) (tok : String) (c2 : TokenStore)
    (heq : IONAuthManager.requestNewToken t (.success resp) c = .ok (tok, c2)) :
    tok = resp.access_token ∧
    ((c2.getEntry IONAuthManager.cacheKey).map (fun e => e.value.expiresAt)
        = some (t + (resp.expires_in - 60) * 1000)) ∧
    (resp.expires_in ≠ 60 →
      (c2.getEntry IONAuthManager.cacheKey).map (fun e => e.expiresAt)
        = some (some (t + (resp.expires_in - 60) * 1000))) ∧
    (resp.expires_in = 3600 →
      ∀ er2 : TokenEndpointResult,
        (IONAuthManager.getAccessToken (t + 3541 * 1000) er2 c2).networkCall = true ∧
        (IONAuthManager.getAccessToken (t + 3539 * 1000) er2 c2)
          = ⟨.ok resp.access_token, c2, false⟩) := by
  simp only [IONAuthManager.requestNewToken, Except.ok.injEq, Prod.mk.injEq] at heq
  obtain ⟨htok, hc2⟩ := heq
  subst htok
  subst hc2
  have hentry := MemoryCache.getEntry_set_some c IONAuthManager.cacheKey
    ⟨resp.access_token, t + IONAuthManager.effectiveTtlSeconds resp.expires_in * 1000⟩ t
    (IONAuthManager.effectiveTtlSeconds resp.expires_in)
  refine ⟨rfl, ?_, ?_, ?_⟩
  · rw [hentry]
    simp [IONAuthManager.effectiveTtlSeconds]
  · intro hne
    have hz : ¬ (IONAuthManager.effectiveTtlSeconds resp.expires_in = 0) := by
      simp only [IONAuthManager.effectiveTtlSeconds]
      omega
    rw [if_neg hz] at hentry
    rw [hentry]
    simp [IONAuthManager.effectiveTtlSeconds]
  · intro h3600 er2
    rw [h3600] at hentry
    have hz : ¬ (IONAuthManager.effectiveTtlSeconds 3600 = 0) := by decide
    rw [if_neg hz] at hentry
    rw [h3600]
    constructor
    · exact IONAuthManager.getAccessToken_networkCall_of_expired _ er2 _ _ hentry
        (by simp only [IONAuthManager.effectiveTtlSeconds]; omega)
    · have hc := IONAuthManager.getAccessToken_cached (t + 3539 * 1000) er2 _ _ hentry
        (Or.inl rfl) (by simp only [IONAuthManager.effectiveTtlSeconds]; omega)
      simpa using hc

/-- Witness for C1: a concrete acquisition at t = 0 with expires_in = 3600;
the call at 3541 s re-acquires. -/
theorem claim_C1_witness :
    (IONAuthManager.getAccessToken (0 + 3541 * 1000)
        (.success ⟨"T2", "Bearer", 3600, none⟩)
        ((MemoryCache.empty TokenValue).set IONAuthManager.cacheKey
          ⟨"T1", 0 + IONAuthManager.effectiveTtlSeconds 3600 * 1000⟩ 0
          (some (IONAuthManager.effectiveTtlSeconds 3600)))).networkCall = true :=
  ((claim_C1_expiry_margin 0 ⟨"T1", "Bearer", 3600, none⟩ (MemoryCache.empty TokenValue)
      "T1" _ rfl).2.2.2 rfl (.success ⟨"T2", "Bearer", 3600, none⟩)).1

/-! ## Claim C4 — cache-first token reads -/

/-- A token store is well formed when the single token entry, if present,
carries a driver-level expiry that matches the expiry stored inside the
value, or no driver-level expiry at all.  Every store the auth manager
writes has this shape. -/
def TokenStoreWF (c : TokenStore) : Prop :=
  ∀ e, c.getEntry IONAuthManager.cacheKey = some e →
    e.expiresAt = some e.value.expiresAt ∨ e.expiresAt = none

/-- C4: on a well-formed store, getAccessToken returns the cached token
string with no network call exactly when an entry is present whose stored
expiry is strictly in the future; when the entry is absent, or its stored
expiry is at or before the current time (remaining lifetime zero included),
a new token is acquired from the token endpoint. -/
theorem claim_C4_cache_first
    (now : Int) (er : TokenEndpointResult) (c : TokenStore) (hwf : TokenStoreWF c) :
    (∀ e, c.getEntry IONAuthManager.cacheKey = some e → e.value.expiresAt > now →
      IONAuthManager.getAccessToken now er c = ⟨.ok e.value.token, c, false⟩) ∧
    (c.getEntry IONAuthManager.cacheKey = none →
      (IONAuthManager.getAccessToken now er c).networkCall = true) ∧
    (∀ e, c.getEntry IONAuthManager.cacheKey = some e → e.value.expiresAt ≤ now →
      (IONAuthManager.getAccessToken now er c).networkCall = true) := by
  refine ⟨?_, ?_, ?_⟩
  · intro e he hv
    exact IONAuthManager.getAccessToken_cached now er c e he (hwf e he) hv
  · intro h
    exact IONAuthManager.getAccessToken_networkCall_of_getEntry_none now er c h
  · intro e he hv
    exact IONAuthManager.getAccessToken_networkCall_of_expired now er c e he hv

/-- Witness for C4: a concrete store holding a token valid until 5000 ms,
read at 1000 ms (cache hit, no network) and the same store read at 5000 ms
(remaining 0, re-acquisition). -/
theorem claim_C4_witness :
    IONAuthManager.getAccessToken 1000 (.success ⟨"N", "Bearer", 3600, none⟩)
        ((MemoryCache.empty TokenValue).set IONAuthManager.cacheKey ⟨"C", 5000⟩ 0 (some 5))
      = ⟨.ok "C",
          (MemoryCache.empty TokenValue).set IONAuthManager.cacheKey ⟨"C", 5000⟩ 0 (some 5),
          false⟩ ∧
    (IONAuthManager.getAccessToken 5000 (.success ⟨"N", "Bearer", 3600, none⟩)
        ((MemoryCache.empty TokenValue).set IONAuthManager.cacheKey ⟨"C", 5000⟩ 0 (some 5))).networkCall
      = true := by
  have hwf : TokenStoreWF
      ((MemoryCache.empty TokenValue).set IONAuthManager.cacheKey ⟨"C", 5000⟩ 0 (some 5)) := by
    intro e he
    left
    rw [MemoryCache.getEntry_set_some] at he
    obtain rfl := Option.some.inj he.symm
    decide
  refine ⟨?_, ?_⟩
  · exact (claim_C4_cache_first 1000 (.success ⟨"N", "Bearer", 3600, none⟩) _ hwf).1
      ⟨⟨"C", 5000⟩, some 5000⟩ (by rfl) (by decide)
  · exact (claim_C4_cache_first 5000 (.success ⟨"N", "Bearer", 3600, none⟩) _ hwf).2.2
      ⟨⟨"C", 5000⟩, some 5000⟩ (by rfl) (by decide)

/-! ## Claim C5 — no clamp for short lifetimes (corrected) -/

/-- Counterexample to C5 as stated: for expires_in = 30 the effective ttl
handed to cache.set is -30, a negative value, not a small positive minimum;
the token is stored with absolute expiry 970000 ms, 30 s in the past of the
acquisition time 1000000 ms. -/
theorem claim_C5_counterexample :
    IONAuthManager.effectiveTtlSeconds 30 = -30 ∧
    ¬ (0 < IONAuthManager.effectiveTtlSeconds 30) ∧
    IONAuthManager.requestNewToken 1000000 (.success ⟨"T", "Bearer", 30, none⟩)
        (MemoryCache.empty TokenValue)
      = .ok ("T", ⟨[(IONAuthManager.cacheKey, ⟨⟨"T", 970000⟩, some 970000⟩)]⟩) := by
  refine ⟨by decide, by decide, ?_⟩
  simp [IONAuthManager.requestNewToken, IONAuthManager.effectiveTtlSeconds,
    MemoryCache.set, MemoryCache.empty]

/-- C5 amended: for expires_in ≤ 60 the effective ttl is expires_in - 60,
which is zero or negative — no clamping to a positive minimum is applied.
The token is stored already expired (stored expiry at or before the
acquisition time) and the very next getAccessToken call re-acquires. -/
theorem claim_C5_amended
    (t : Int) (resp : IONTokenResponse) (c : TokenStore) (tok : String) (c2 : TokenStore)
    (heq : IONAuthManager.requestNewToken t (.success resp) c = .ok (tok, c2))
    (hle : resp.expires_in ≤ 60) :
    IONAuthManager.effectiveTtlSeconds resp.expires_in ≤ 0 ∧
    (∀ e, c2.getEntry IONAuthManager.cacheKey = some e → e.value.expiresAt ≤ t) ∧
    (∀ er2, (IONAuthManager.getAccessToken t er2 c2).networkCall = true) := by
  simp only [IONAuthManager.requestNewToken, Except.ok.injEq, Prod.mk.injEq] at heq
  obtain ⟨htok, hc2⟩ := heq
  subst htok
  subst hc2
  have hentry := MemoryCache.getEntry_set_some c IONAuthManager.cacheKey
    ⟨resp.access_token, t + IONAuthManager.effectiveTtlSeconds resp.expires_in * 1000⟩ t
    (IONAuthManager.effectiveTtlSeconds resp.expires_in)
  refine ⟨by simp only [IONAuthManager.effectiveTtlSeconds]; omega, ?_, ?_⟩
  · intro e he
    rw [hentry] at he
    obtain rfl := Option.some.inj he.symm
    simp only [IONAuthManager.effectiveTtlSeconds]
    omega
  · intro er2
    refine IONAuthManager.getAccessToken_networkCall_of_expired t er2 _ _ hentry ?_
    simp only [IONAuthManager.effectiveTtlSeconds]
    omega

/-- Witness for C5 amended: expires_in = 30 at t = 0. -/
theorem claim_C5_witness :
    IONAuthManager.effectiveTtlSeconds 30 ≤ 0 ∧
    (IONAuthManager.getAccessToken 0 (.oauthError "server_error" none)
        ((MemoryCache.empty TokenValue).set IONAuthManager.cacheKey
          ⟨"T", 0 + IONAuthManager.effectiveTtlSeconds 30 * 1000⟩ 0
          (some (IONAuthManager.effectiveTtlSeconds 30)))).networkCall = true := by
  have h := claim_C5_amended 0 ⟨"T", "Bearer", 30, none⟩ (MemoryCache.empty TokenValue)
    "T" _ rfl (by decide)
  exact ⟨h.1, h.2.2 (.oauthError "server_error" none)⟩

/-! ## Client request lemmas shared by the retry claims -/

/-- Unfolding of a request attempt that already carries X-Retry-Auth: one
upstream attempt, no clearToken call, success for a 2xx status and a thrown
IONAPIError for everything else (a second 401 included) — never a further
retry. -/
theorem IONApiClient.request_second_attempt
    (upstream : Nat → Int × String) (now : Int) (resp : IONTokenResponse)
    (a : Nat) (c : TokenStore) :
    IONApiClient.request upstream now (.success resp) a true c
      = (if 200 ≤ (upstream a).1 ∧ (upstream a).1 < 300 then
          ⟨[true], [(IONAuthManager.getAccessToken now (.success resp) c).networkCall], 0,
            .ok ((upstream a).1, (upstream a).2),
            (IONAuthManager.getAccessToken now (.success resp) c).store⟩
        else
          ⟨[true], [(IONAuthManager.getAccessToken now (.success resp) c).networkCall], 0,
            .error ⟨"ION API request failed", (upstream a).1⟩,
            (IONAuthManager.getAccessToken now (.success resp) c).store⟩) := by
  obtain ⟨tok, hg⟩ := IONAuthManager.getAccessToken_success_result now resp c
  rw [IONApiClient.request.eq_def]
  dsimp only
  rw [hg]
  have hfalse : ¬ ((upstream a).1 = 401 ∧ true = false) := by simp
  rw [dif_neg hfalse]

/-- Unfolding of a first attempt answered 401: the token is cleared exactly
once and the request recurses exactly once with X-Retry-Auth set, on the
store left by the clear. -/
theorem IONApiClient.request_first_attempt_401
    (upstream : Nat → Int × String) (now : Int) (resp : IONTokenResponse)
    (a : Nat) (c : TokenStore) (b0 : String) (h0 : upstream a = (401, b0)) :
    IONApiClient.request upstream now (.success resp) a false c
      = (let g := IONAuthManager.getAccessToken now (.success resp) c
         let rest := IONApiClient.request upstream now (.success resp) (a + 1) true
           (IONAuthManager.clearToken g.store)
         ⟨false :: rest.attemptRetryHeader, g.networkCall :: rest.attemptAcquired,
           rest.clearCalls + 1, rest.result, rest.store⟩) := by
  obtain ⟨tok, hg⟩ := IONAuthManager.getAccessToken_success_result now resp c
  rw [IONApiClient.request.eq_def]
  dsimp only
  rw [hg, h0]
  norm_num

/-- The first upstream attempt of any request carries X-Retry-Auth exactly
when the inbound options already did. -/
theorem IONApiClient.request_head_retryHeader
    (upstream : Nat → Int × String) (now : Int) (resp : IONTokenResponse)
    (a : Nat) (r : Bool) (c : TokenStore) :
    (IONApiClient.request upstream now (.success resp) a r c).attemptRetryHeader.head?
      = some r := by
  obtain ⟨tok, hg⟩ := IONAuthManager.getAccessToken_success_result now resp c
  rw [IONApiClient.request.eq_def]
  dsimp only
  rw [hg]
  dsimp only
  split
  · rfl
  · split
    · rfl
    · rfl

/-! ## Claim C2 — exactly one reactive retry on 401 -/

/-- C2: with a reachable token endpoint, a 401-then-401 upstream sequence
produces exactly two upstream attempts, exactly one clearToken call between
them, and a terminal IONAPIError with status 401; a 401-then-200 sequence
produces exactly two upstream attempts, one clearToken call, a successful
response carrying the body of the second answer, and the retried attempt runs on
a freshly acquired token (its acquisition hit the network). -/
theorem claim_C2_single_retry
    (upstream : Nat → Int × String) (now : Int) (resp : IONTokenResponse)
    (c : TokenStore) (b0 b1 : String) :
    (upstream 0 = (401, b0) → upstream 1 = (401, b1) →
      (IONApiClient.request upstream now (.success resp) 0 false c).attemptRetryHeader.length = 2 ∧
      (IONApiClient.request upstream now (.success resp) 0 false c).clearCalls = 1 ∧
      (IONApiClient.request upstream now (.success resp) 0 false c).result
        = .error ⟨"ION API request failed", 401⟩) ∧
    (upstream 0 = (401, b0) → upstream 1 = (200, b1) →
      (IONApiClient.request upstream now (.success resp) 0 false c).attemptRetryHeader.length = 2 ∧
      (IONApiClient.request upstream now (.success resp) 0 false c).clearCalls = 1 ∧
      (IONApiClient.request upstream now (.success resp) 0 false c).result = .ok (200, b1) ∧
      (IONApiClient.request upstream now (.success resp) 0 false c).attemptAcquired.getLast?
        = some true) := by
  have hnet := IONAuthManager.getAccessToken_networkCall_of_getEntry_none now (.success resp)
    (IONAuthManager.clearToken (IONAuthManager.getAccessToken now (.success resp) c).store)
    (IONAuthManager.clearToken_getEntry _)
  constructor
  · intro h0 h1
    rw [IONApiClient.request_first_attempt_401 upstream now resp 0 c b0 h0]
    dsimp only
    rw [IONApiClient.request_second_attempt]
    simp [h1]
  · intro h0 h1
    rw [IONApiClient.request_first_attempt_401 upstream now resp 0 c b0 h0]
    dsimp only
    rw [IONApiClient.request_second_attempt]
    simp [h1, hnet]

/-- Witness for C2: the concrete 401-then-200 upstream script. -/
theorem claim_C2_witness :
    (IONApiClient.request (fun n => if n = 0 then (401, "unauthorized") else (200, "payload"))
        0 (.success ⟨"T", "Bearer", 3600, none⟩) 0 false
        (MemoryCache.empty TokenValue)).clearCalls = 1 ∧
    (IONApiClient.request (fun n => if n = 0 then (401, "unauthorized") else (200, "payload"))
        0 (.success ⟨"T", "Bearer", 3600, none⟩) 0 false
        (MemoryCache.empty TokenValue)).result = .ok (200, "payload") := by
  have h := (claim_C2_single_retry
    (fun n => if n = 0 then (401, "unauthorized") else (200, "payload"))
    0 ⟨"T", "Bearer", 3600, none⟩ (MemoryCache.empty TokenValue)
    "unauthorized" "payload").2 rfl rfl
  exact ⟨h.2.1, h.2.2.1⟩

/-! ## Claim C10 — the X-Retry-Auth header marks the retried attempt -/

/-- C10: the first upstream attempt of a proxied request (whose inbound
options carry no X-Retry-Auth) is sent without that header; after a 401 the
retried attempt is sent with X-Retry-Auth set, so the retry differs from the
original upstream request by that header; and a request whose options
already carry the header treats a 401 as terminal — one attempt, no
clearToken, an error — which is what bounds the retries. -/
theorem claim_C10_retry_header
    (upstream : Nat → Int × String) (now : Int) (resp : IONTokenResponse)
    (c : TokenStore) (b0 : String) :
    ((IONApiClient.request upstream now (.success resp) 0 false c).attemptRetryHeader.head?
      = some false) ∧
    (upstream 0 = (401, b0) →
      (IONApiClient.request upstream now (.success resp) 0 false c).attemptRetryHeader
        = [false, true]) ∧
    (upstream 0 = (401, b0) →
      (IONApiClient.request upstream now (.success resp) 0 true c).attemptRetryHeader = [true] ∧
      (IONApiClient.request upstream now (.success resp) 0 true c).clearCalls = 0 ∧
      (IONApiClient.request upstream now (.success resp) 0 true c).result
        = .error ⟨"ION API request failed", 401⟩) := by
  refine ⟨IONApiClient.request_head_retryHeader upstream now resp 0 false c, ?_, ?_⟩
  · intro h0
    rw [IONApiClient.request_first_attempt_401 upstream now resp 0 c b0 h0]
    dsimp only
    rw [IONApiClient.request_second_attempt]
    split <;> rfl
  · intro h0
    rw [IONApiClient.request_second_attempt]
    simp [h0]

/-- Witness for C10: an upstream that always answers 401. -/
theorem claim_C10_witness :
    (IONApiClient.request (fun _ => (401, "nope")) 0 (.success ⟨"T", "Bearer", 3600, none⟩)
        0 false (MemoryCache.empty TokenValue)).attemptRetryHeader = [false, true] :=
  (claim_C10_retry_header (fun _ => (401, "nope")) 0 ⟨"T", "Bearer", 3600, none⟩
    (MemoryCache.empty TokenValue) "nope").2.1 rfl

/-! ## Claim C6 — proactive refresh threshold -/

/-- C6: on a timer tick, an absent token entry means nothing is done (no
invalidation, no acquisition, the store untouched); a cached token whose
driver expiry matches its stored expiry and whose remaining lifetime
(expiresAt - now) / 1000 seconds is at most refreshBeforeExpiry triggers
exactly one invalidate + acquisition cycle (so remaining 240 s against the
default threshold 300 runs one cycle); a remaining lifetime above the
threshold (such as 600 s) triggers neither an invalidation nor an
acquisition. -/
theorem claim_C6_refresh_threshold
    (now : Int) (threshold : ℚ) (er : TokenEndpointResult) (c : TokenStore) :
    (c.getEntry IONAuthManager.cacheKey = none →
      TokenRefresher.checkAndRefreshToken now threshold er c = ⟨0, 0, false, c⟩) ∧
    (∀ e, c.getEntry IONAuthManager.cacheKey = some e →
      e.expiresAt = some e.value.expiresAt →
      now ≤ e.value.expiresAt →
      (((e.value.expiresAt - now : Int) : ℚ) / 1000 ≤ threshold →
        (TokenRefresher.checkAndRefreshToken now threshold er c).invalidations = 1 ∧
        (TokenRefresher.checkAndRefreshToken now threshold er c).acquisitionAttempts = 1) ∧
      (threshold < ((e.value.expiresAt - now : Int) : ℚ) / 1000 →
        (TokenRefresher.checkAndRefreshToken now threshold er c).invalidations = 0 ∧
        (TokenRefresher.checkAndRefreshToken now threshold er c).acquisitionAttempts = 0)) := by
  constructor
  · intro h
    unfold TokenRefresher.checkAndRefreshToken
    simp [MemoryCache.get, h]
  · intro e he hd hnow
    have hget : c.get IONAuthManager.cacheKey now = (some e.value, c) := by
      simp only [MemoryCache.get, he, hd]
      have : ¬ (e.value.expiresAt < now) := by omega
      simp [this]
    constructor
    · intro hle
      unfold TokenRefresher.checkAndRefreshToken
      rw [hget]
      simp only [hle, if_true]
      cases er <;> simp [IONAuthManager.requestNewToken]
    · intro hgt
      unfold TokenRefresher.checkAndRefreshToken
      rw [hget]
      dsimp only
      rw [if_neg (not_le.mpr hgt)]
      exact ⟨rfl, rfl⟩

/-- Witness for C6: threshold 300 s; a token with remaining 240 s triggers
one cycle and one with remaining 600 s triggers none, on concrete stores. -/
theorem claim_C6_witness :
    ((TokenRefresher.checkAndRefreshToken 0 300 (.success ⟨"N", "Bearer", 3600, none⟩)
        ((MemoryCache.empty TokenValue).set IONAuthManager.cacheKey ⟨"R", 240000⟩ 0 (some 240))).invalidations = 1) ∧
    ((TokenRefresher.checkAndRefreshToken 0 300 (.success ⟨"N", "Bearer", 3600, none⟩)
        ((MemoryCache.empty TokenValue).set IONAuthManager.cacheKey ⟨"R", 600000⟩ 0 (some 600))).invalidations = 0) := by
  constructor
  · exact (((claim_C6_refresh_threshold 0 300 (.success ⟨"N", "Bearer", 3600, none⟩) _).2
      ⟨⟨"R", 240000⟩, some 240000⟩ (by rfl) (by rfl) (by decide)).1 (by norm_num)).1
  · exact (((claim_C6_refresh_threshold 0 300 (.success ⟨"N", "Bearer", 3600, none⟩) _).2
      ⟨⟨"R", 600000⟩, some 600000⟩ (by rfl) (by rfl) (by decide)).2 (by norm_num)).1

/-! ## Claim C7 — the refresher survives failing ticks -/

/-- A tick never changes the refresher flags, only the token store. -/
theorem TokenRefresher.tick_flags (now : Int) (er : TokenEndpointResult)
    (st : TokenRefresher.State) :
    (TokenRefresher.tick now er st).isRunning = st.isRunning ∧
    (TokenRefresher.tick now er st).hasInterval = st.hasInterval :=
  ⟨rfl, rfl⟩

/-- Any sequence of ticks, failing ones included, leaves the flags alone. -/
theorem TokenRefresher.runTicks_flags (events : List (Int × TokenEndpointResult)) :
    ∀ st : TokenRefresher.State,
      (TokenRefresher.runTicks events st).isRunning = st.isRunning ∧
      (TokenRefresher.runTicks events st).hasInterval = st.hasInterval := by
  induction events with
  | nil => intro st; exact ⟨rfl, rfl⟩
  | cons ev rest ih =>
    intro st
    exact ih (TokenRefresher.tick ev.1 ev.2 st)

/-- C7: from a running state with the interval timer installed, any sequence
of scheduled ticks — each with an arbitrary token endpoint outcome, transport
failures included — leaves the refresher running with the timer installed
(so the next scheduled tick still executes); a single failing tick in
particular preserves both flags; the refresher stops only through stop(),
which resets the running flag. -/
theorem claim_C7_refresher_resilience
    (st : TokenRefresher.State) (events : List (Int × TokenEndpointResult))
    (hrun : st.isRunning = true) (hint : st.hasInterval = true) :
    (TokenRefresher.runTicks events st).isRunning = true ∧
    (TokenRefresher.runTicks events st).hasInterval = true ∧
    (∀ now msg, (TokenRefresher.tick now (.transportError none msg) st).isRunning = true ∧
      (TokenRefresher.tick now (.transportError none msg) st).hasInterval = true) ∧
    (TokenRefresher.stop (TokenRefresher.runTicks events st)).isRunning = false := by
  obtain ⟨h1, h2⟩ := TokenRefresher.runTicks_flags events st
  refine ⟨h1.trans hrun, h2.trans hint, ?_, ?_⟩
  · intro now msg
    exact ⟨((TokenRefresher.tick_flags now _ st).1).trans hrun,
      ((TokenRefresher.tick_flags now _ st).2).trans hint⟩
  · unfold TokenRefresher.stop
    by_cases h : (TokenRefresher.runTicks events st).isRunning = false
    · rw [if_pos h]; exact h
    · rw [if_neg h]

/-- Witness for C7: a concrete running refresher surviving a failing tick. -/
theorem claim_C7_witness :
    (TokenRefresher.runTicks [(60000, .transportError none "connection refused")]
        ⟨true, true, 300, 60000, MemoryCache.empty TokenValue⟩).isRunning = true ∧
    (TokenRefresher.runTicks [(60000, .transportError none "connection refused")]
        ⟨true, true, 300, 60000, MemoryCache.empty TokenValue⟩).hasInterval = true := by
  have h := claim_C7_refresher_resilience
    ⟨true, true, 300, 60000, MemoryCache.empty TokenValue⟩
    [(60000, .transportError none "connection refused")] rfl rfl
  exact ⟨h.1, h.2.1⟩

/-! ## Claim C3 — cacheable GETs hit the response cache -/

/-- Every cacheable path of the allow-list carries a configured ttl of 300 or
600 seconds. -/
theorem ProxyRoute.shouldCache_ttl (p m : String) (ttl : Int)
    (h : ProxyRoute.shouldCache p m = ⟨true, some ttl⟩) : ttl = 300 ∨ ttl = 600 := by
  unfold ProxyRoute.shouldCache at h
  split at h
  · rename_i pc hf
    have hmem := List.mem_of_find?_eq_some hf
    have hinj : some pc.2.1 = some ttl := congrArg ShouldCacheResult.ttl h
    obtain rfl := Option.some.inj hinj
    simp only [ProxyRoute.CACHE_CONFIG, List.mem_cons, List.mem_singleton] at hmem
    rcases hmem with rfl | rfl | rfl | hfalse
    · exact Or.inl rfl
    · exact Or.inr rfl
    · exact Or.inl rfl
    · simp at hfalse
  · exact absurd (congrArg ShouldCacheResult.cache h) (by simp)

/-- A GET whose derived key holds an unexpired cached body is answered from
the cache: X-Cache HIT, the cached body with status 200, no upstream attempt,
no token acquisition, and both caches untouched. -/
theorem ProxyRoute.proxyHandle_hit
    (defaultTtl now : Int) (req : ProxyRoute.ProxyRequest) (er : TokenEndpointResult)
    (upstream : Nat → Int × String) (rc : MemoryCache String) (tc : TokenStore)
    (b : String) (exp : Int)
    (hm : req.method = "GET")
    (hentry : rc.getEntry (ProxyRoute.proxyCacheKey req) = some ⟨b, some exp⟩)
    (hfresh : ¬ (exp < now)) :
    ProxyRoute.proxyHandle defaultTtl now req er upstream rc tc
      = ⟨some "HIT", 0, 0, .ok (200, b), rc, tc⟩ := by
  unfold ProxyRoute.proxyHandle
  rw [hm]
  simp only [if_pos rfl, MemoryCache.get, hentry]
  rw [if_neg hfresh]
  simp

/-- Over a whole sequence of identical GET requests issued while the cached
entry is unexpired, every request is answered from the cache with the cached
body and no upstream or token interaction. -/
theorem ProxyRoute.proxySeq_hits
    (defaultTtl : Int) (req : ProxyRoute.ProxyRequest) (b : String) (exp : Int)
    (hm : req.method = "GET") :
    ∀ (events : List (Int × TokenEndpointResult × (Nat → Int × String)))
      (rc : MemoryCache String) (tc : TokenStore),
      rc.getEntry (ProxyRoute.proxyCacheKey req) = some ⟨b, some exp⟩ →
      (∀ ev ∈ events, ev.1 ≤ exp) →
      ∀ tr ∈ (ProxyRoute.proxySeq defaultTtl req events rc tc).1,
        tr.xCache = some "HIT" ∧ tr.upstreamAttempts = 0 ∧ tr.acquisitions = 0 ∧
        tr.result = .ok (200, b) := by
  intro events
  induction events with
  | nil =>
    intro rc tc hentry hall tr htr
    simp [ProxyRoute.proxySeq] at htr
  | cons ev rest ih =>
    intro rc tc hentry hall tr htr
    have hne : ¬ (exp < ev.1) := not_lt.mpr (hall ev (by simp))
    have hh := ProxyRoute.proxyHandle_hit defaultTtl ev.1 req ev.2.1 ev.2.2 rc tc b exp
      hm hentry hne
    simp only [ProxyRoute.proxySeq, hh] at htr
    rcases List.mem_cons.mp htr with rfl | htr2
    · exact ⟨rfl, rfl, rfl, rfl⟩
    · exact ih rc tc hentry (fun e he => hall e (List.mem_cons_of_mem ev he)) tr htr2

/-- A request whose final result is a success made at least one upstream
attempt. -/
theorem IONApiClient.request_attempts_pos
    (upstream : Nat → Int × String) (now : Int) (er : TokenEndpointResult)
    (a : Nat) (r : Bool) (c : TokenStore) (x : Int × String) :
    (IONApiClient.request upstream now er a r c).result = .ok x →
    1 ≤ (IONApiClient.request upstream now er a r c).attemptRetryHeader.length := by
  rw [IONApiClient.request.eq_def]
  dsimp only
  rcases hr : (IONAuthManager.getAccessToken now er c).result with e | tok
  · dsimp only
    intro h
    simp at h
  · dsimp only
    intro h
    split
    · simp
    · split
      · simp
      · simp

/-- C3: when a cacheable GET (path on the allow-list with configured ttl)
finds no entry under its derived key and its forward succeeds with status
200, the response is marked X-Cache MISS and took at least one upstream
attempt, and every identical request of any subsequent sequence issued
while the entry is within the configured ttl is answered as a cache hit —
X-Cache HIT, the cached body, zero upstream attempts and zero token
acquisitions. -/
theorem claim_C3_cache_hits
    (defaultTtl : Int) (req : ProxyRoute.ProxyRequest) (er : TokenEndpointResult)
    (upstream : Nat → Int × String) (now0 : Int) (rc : MemoryCache String)
    (tc : TokenStore) (ttl : Int) (b : String)
    (hm : req.method = "GET")
    (hcfg : ProxyRoute.shouldCache req.path req.method = ⟨true, some ttl⟩)
    (hmiss : (rc.get (ProxyRoute.proxyCacheKey req) now0).1 = none)
    (hok : (ProxyRoute.proxyHandle defaultTtl now0 req er upstream rc tc).result = .ok (200, b)) :
    (ProxyRoute.proxyHandle defaultTtl now0 req er upstream rc tc).xCache = some "MISS" ∧
    1 ≤ (ProxyRoute.proxyHandle defaultTtl now0 req er upstream rc tc).upstreamAttempts ∧
    ∀ events : List (Int × TokenEndpointResult × (Nat → Int × String)),
      (∀ ev ∈ events, ev.1 ≤ now0 + ttl * 1000) →
      ∀ tr ∈ (ProxyRoute.proxySeq defaultTtl req events
          (ProxyRoute.proxyHandle defaultTtl now0 req er upstream rc tc).respCache
          (ProxyRoute.proxyHandle defaultTtl now0 req er upstream rc tc).tokenStore).1,
        tr.xCache = some "HIT" ∧ tr.upstreamAttempts = 0 ∧ tr.acquisitions = 0 ∧
        tr.result = .ok (200, b) := by
  rcases hget : rc.get (ProxyRoute.proxyCacheKey req) now0 with ⟨v, rc1⟩
  rw [hget] at hmiss
  dsimp only at hmiss
  subst hmiss
  have hhandle : ProxyRoute.proxyHandle defaultTtl now0 req er upstream rc tc
      = ProxyRoute.proxyForward defaultTtl now0 req er upstream rc1 tc := by
    unfold ProxyRoute.proxyHandle
    rw [hm]
    simp [hget]
  rw [hhandle] at hok ⊢
  unfold ProxyRoute.proxyForward at hok ⊢
  dsimp only at hok ⊢
  rcases hres : (IONApiClient.request upstream now0 er 0 false tc).result with e | ⟨status, body⟩
  · rw [hres] at hok
    dsimp only at hok
    simp at hok
  · rw [hres] at hok
    dsimp only at hok ⊢
    have hsb : status = 200 ∧ body = b := by
      have := hok
      simp only [Except.ok.injEq, Prod.mk.injEq] at this
      exact this
    obtain ⟨rfl, hb⟩ := hsb
    subst hb
    have hcache : req.method = "GET" ∧ (200 : Int) = 200 ∧
        (ProxyRoute.shouldCache req.path req.method).cache = true := by
      refine ⟨hm, rfl, by rw [hcfg]⟩
    rw [if_pos hcache]
    refine ⟨rfl, ?_, ?_⟩
    · exact IONApiClient.request_attempts_pos upstream now0 er 0 false tc (200, body) hres
    · intro events hall tr htr
      have httl : ttl = 300 ∨ ttl = 600 := ProxyRoute.shouldCache_ttl _ _ _ hcfg
      have httlne : ¬ (ttl = 0) := by rcases httl with rfl | rfl <;> decide
      have hentry : (CacheManager.set defaultTtl rc1 (ProxyRoute.proxyCacheKey req) body now0
          (ProxyRoute.shouldCache req.path req.method).ttl).getEntry
          (ProxyRoute.proxyCacheKey req) = some ⟨body, some (now0 + ttl * 1000)⟩ := by
        rw [hcfg]
        unfold CacheManager.set
        rw [MemoryCache.getEntry_set_some]
        simp [httlne]
      exact ProxyRoute.proxySeq_hits defaultTtl req body (now0 + ttl * 1000) hm events _ _
        hentry hall tr htr

set_option maxRecDepth 8192 in
/-- Witness for C3: a concrete cacheable GET on the /LN/api prefix whose
first pass is a MISS with an upstream attempt. -/
theorem claim_C3_witness :
    (ProxyRoute.proxyHandle 300 0
        ⟨some "client1", "GET", "/LN/api/orders", "\x7b\x7d"⟩
        (.success ⟨"T", "Bearer", 3600, none⟩) (fun _ => (200, "orders"))
        (MemoryCache.empty String) (MemoryCache.empty TokenValue)).xCache = some "MISS" ∧
    1 ≤ (ProxyRoute.proxyHandle 300 0
        ⟨some "client1", "GET", "/LN/api/orders", "\x7b\x7d"⟩
        (.success ⟨"T", "Bearer", 3600, none⟩) (fun _ => (200, "orders"))
        (MemoryCache.empty String) (MemoryCache.empty TokenValue)).upstreamAttempts := by
  have hok : (ProxyRoute.proxyHandle 300 0
      ⟨some "client1", "GET", "/LN/api/orders", "\x7b\x7d"⟩
      (.success ⟨"T", "Bearer", 3600, none⟩) (fun _ => (200, "orders"))
      (MemoryCache.empty String) (MemoryCache.empty TokenValue)).result = .ok (200, "orders") := by
    simp [ProxyRoute.proxyHandle, ProxyRoute.proxyForward, IONApiClient.request.eq_def,
      IONAuthManager.getAccessToken, IONAuthManager.requestNewToken, MemoryCache.get,
      MemoryCache.getEntry, MemoryCache.empty, ProxyRoute.proxyCacheKey, CacheManager.key]
  have h := claim_C3_cache_hits 300 ⟨some "client1", "GET", "/LN/api/orders", "\x7b\x7d"⟩
    (.success ⟨"T", "Bearer", 3600, none⟩) (fun _ => (200, "orders")) 0
    (MemoryCache.empty String) (MemoryCache.empty TokenValue) 300 "orders"
    rfl (by decide) rfl hok
  exact ⟨h.1, h.2.1⟩

/-! ## Claim C8 — invalidation is unconditional and idempotent -/

/-- C8: clearToken / invalidate never errors, deletes the cached token entry
unconditionally (afterwards the store holds no token, exactly as if none had
ever been cached), two consecutive calls leave the same state as one, and a
call on a store that holds no token entry leaves the store unchanged. -/
theorem claim_C8_invalidate_idempotent (c : TokenStore) :
    (IONAuthManager.clearToken c).getEntry IONAuthManager.cacheKey = none ∧
    IONAuthManager.clearToken (IONAuthManager.clearToken c) = IONAuthManager.clearToken c ∧
    (c.getEntry IONAuthManager.cacheKey = none → IONAuthManager.clearToken c = c) := by
  refine ⟨IONAuthManager.clearToken_getEntry c, ?_, ?_⟩
  · simp only [IONAuthManager.clearToken, MemoryCache.deleteKey]
    exact congrArg MemoryCache.mk (filter_ne_idem _ _)
  · intro h
    simp only [IONAuthManager.clearToken, MemoryCache.deleteKey]
    have := filter_of_lookup_none IONAuthManager.cacheKey c.entries h
    cases c
    simpa using congrArg MemoryCache.mk this

/-- Witness for C8 at a concrete store that holds no token. -/
theorem claim_C8_witness :
    (MemoryCache.empty TokenValue).getEntry IONAuthManager.cacheKey = none ∧
    IONAuthManager.clearToken (MemoryCache.empty TokenValue) = MemoryCache.empty TokenValue :=
  ⟨rfl, (claim_C8_invalidate_idempotent (MemoryCache.empty TokenValue)).2.2 rfl⟩

/-! ## Claim C9 — secret redaction and the logging modes -/

/-- C9: the claim requires that in every logging mode a field named
clientSecret is redacted before serialization.  The redacting serializer
(safeStringify) is wired only into the pretty format, which is active only
when PRETTY_LOGS is true and NODE_ENV is development; every other mode
serializes with the stock json() format and the secret value appears
verbatim in the output.  At the failing input below the JSON mode emits the
secret while the pretty development mode redacts it. -/
theorem claim_C9_redaction_only_in_pretty_mode :
    LoggerModel.loggerSerializeMeta false "production"
        (.obj [("clientSecret", .str "super-secret-value")])
      = "\x7b\"clientSecret\":\"super-secret-value\"\x7d" ∧
    LoggerModel.loggerSerializeMeta true "development"
        (.obj [("clientSecret", .str "super-secret-value")])
      = "\x7b\"clientSecret\":\"[REDACTED]\"\x7d" ∧
    LoggerModel.safeStringify (.obj [("password", .str "pw"), ("sask", .str "sk"),
        ("clientSecret", .str "cs-value"), ("cs", .str "c"), ("other", .str "kept")])
      = "\x7b\"password\":\"[REDACTED]\",\"sask\":\"[REDACTED]\",\"clientSecret\":\"[REDACTED]\",\"cs\":\"[REDACTED]\",\"other\":\"kept\"\x7d" := by
  refine ⟨rfl, rfl, rfl⟩

end MesIonApi
